import Mathlib

/-
Verification of the MCE (multi-criteria evaluation) scoring core of
src/Wildfire_Arcpy.py.

The scoring core of the script consists of:
  * z-score standardization of five criteria (lines 459-466),
  * a seven-bucket ascending-risk classification chain for age and burn
    severity (lines 473-489 and 494-510, two textually identical chains),
  * a seven-bucket descending-risk classification chain for income, road
    count and fire-station count (lines 517-533, 538-554, 562-577, three
    textually identical chains),
  * min-max scaling for hospital proximity (lines 583-586),
  * the weighted composite MCE (lines 603-613).

Numeric values are modelled as rationals; the arithmetic of the script on
the numbers involved is exact at this granularity.  Python's raising float
division by zero is modelled where a claim depends on it (pyDiv below), and
IEEE NaN comparison behavior is modelled by an Option type whose none value
fails every ordered comparison, as NaN does.
-/

namespace Wildfire

/-- Arithmetic mean of a column of values, as computed by
arcpy.analysis.Statistics with the MEAN statistic (lines 278-295). -/
def mean (vs : List ℚ) : ℚ := vs.sum / (vs.length : ℚ)

/-- Sum of squared deviations from the mean of a column. -/
def sumSqDev (vs : List ℚ) : ℚ := (vs.map (fun v => (v - mean vs) ^ 2)).sum

/-- Sample variance (denominator n - 1) of a column; the square of the STD
statistic of arcpy.analysis.Statistics under the sample convention. -/
def sampleVariance (vs : List ℚ) : ℚ := sumSqDev vs / ((vs.length : ℚ) - 1)

/-- Population variance (denominator n) of a column; the square of the STD
statistic under the population convention. -/
def popVariance (vs : List ℚ) : ℚ := sumSqDev vs / (vs.length : ℚ)

/-- One z-score assignment of the update cursor at lines 459-466, e.g.
row[5] = (row[1] - AgeAvg) / AgeSTD. -/
def zscore (v m s : ℚ) : ℚ := (v - m) / s

/-- The full pass of the z-score update cursor (lines 459-466) over one
criterion column: every row receives (v - m) / s with the same m and s. -/
def zscoreColumn (vs : List ℚ) (m s : ℚ) : List ℚ := vs.map (fun v => zscore v m s)

/-- The ascending-risk classification chain, transcribed from the
age_scaled update cursor (lines 473-489); the burn_scaled cursor
(lines 494-510) is textually identical. -/
def scaleAscending (z : ℚ) : ℚ :=
  if z ≤ -1.5 then 0.1
  else if -1.5 < z ∧ z ≤ -1 then 0.2
  else if -1 < z ∧ z ≤ -0.5 then 0.3
  else if -0.5 < z ∧ z ≤ 0.5 then 0.5
  else if 0.5 < z ∧ z ≤ 1 then 0.7
  else if 1 < z ∧ z ≤ 1.5 then 0.85
  else 1

/-- The descending-risk classification chain, transcribed from the
inc_scaled update cursor (lines 517-533); the road_scaled (lines 538-554)
and fstation_scaled (lines 562-577) cursors are textually identical. -/
def scaleDescending (z : ℚ) : ℚ :=
  if z ≤ -1.5 then 1
  else if -1.5 < z ∧ z ≤ -1 then 0.85
  else if -1 < z ∧ z ≤ -0.5 then 0.7
  else if -0.5 < z ∧ z ≤ 0.5 then 0.5
  else if 0.5 < z ∧ z ≤ 1 then 0.3
  else if 1 < z ∧ z ≤ 1.5 then 0.2
  else 0.1

/-- The hos_scaled update cursor assignment (line 585):
row[1] = (row[0] - HospitalMin) / (HospitalMax - HospitalMin). -/
def hos_scaled (v mn mx : ℚ) : ℚ := (v - mn) / (mx - mn)

/-- The MCE update cursor assignment (lines 605-612): the weighted sum of
the six scaled fields with the literal weight constants of the source. -/
def MCE (r0 r1 r2 r3 r4 r5 : ℚ) : ℚ :=
  r0 * 0.05 + r1 * 0.1 + r2 * 0.4 + r3 * 0.15 + r4 * 0.2 + r5 * 0.1

/-- The six weight constants appearing literally at lines 606-611, in the
MCE_fields order age, income, burn, road, fstation, hospital. -/
def weights : List ℚ := [0.05, 0.1, 0.4, 0.15, 0.2, 0.1]

/-- Generic weighted sum, the formula MCE = sum of scaled_i * weight_i of
the specification, for comparison with the MCE definition above. -/
def weightedSum (scaled ws : List ℚ) : ℚ := (List.zipWith (fun a b => a * b) scaled ws).sum

/-- One row of the census_wf6 table at the MCE stage: an identifier and the
six scaled fields listed in MCE_fields (lines 593-601). -/
structure ZoneRec where
  id : ℕ
  age_scaled : ℚ
  inc_scaled : ℚ
  burn_scaled : ℚ
  road_scaled : ℚ
  fstation_scaled : ℚ
  hos_scaled : ℚ

/-- The composite score the MCE cursor writes into one row. -/
def zoneMCE (z : ZoneRec) : ℚ :=
  MCE z.age_scaled z.inc_scaled z.burn_scaled z.road_scaled z.fstation_scaled z.hos_scaled

/-- The full pass of the MCE update cursor (lines 603-613): every row of the
table, in table order, receives its composite score; the script performs no
reordering of rows at any point. -/
def scoreZones (zs : List ZoneRec) : List (ℕ × ℚ) := zs.map (fun z => (z.id, zoneMCE z))

/-- Decides whether a list of scores is sorted in descending order. -/
def sortedDescB : List ℚ → Bool
  | [] => true
  | [_] => true
  | a :: b :: t => decide (b ≤ a) && sortedDescB (b :: t)

/-- Comparison x <= c on a float that may be NaN (modelled as none): NaN
fails every ordered comparison, as in IEEE arithmetic and hence in the
Python comparisons of the classification chains. -/
def fle (x : Option ℚ) (c : ℚ) : Bool :=
  match x with
  | Option.none => false
  | Option.some q => decide (q ≤ c)

/-- Comparison x > c on a float that may be NaN (modelled as none). -/
def fgt (x : Option ℚ) (c : ℚ) : Bool :=
  match x with
  | Option.none => false
  | Option.some q => decide (c < q)

/-- The ascending-risk chain of lines 473-489 over inputs that may be NaN:
each condition is the literal Python condition of the chain, evaluated with
NaN-aware comparisons; the final else is unconditional. -/
def scaleAscendingF (z : Option ℚ) : ℚ :=
  if fle z (-1.5) then 0.1
  else if fgt z (-1.5) && fle z (-1) then 0.2
  else if fgt z (-1) && fle z (-0.5) then 0.3
  else if fgt z (-0.5) && fle z 0.5 then 0.5
  else if fgt z 0.5 && fle z 1 then 0.7
  else if fgt z 1 && fle z 1.5 then 0.85
  else 1

/-- The descending-risk chain of lines 517-533 over inputs that may be NaN. -/
def scaleDescendingF (z : Option ℚ) : ℚ :=
  if fle z (-1.5) then 1
  else if fgt z (-1.5) && fle z (-1) then 0.85
  else if fgt z (-1) && fle z (-0.5) then 0.7
  else if fgt z (-0.5) && fle z 0.5 then 0.5
  else if fgt z 0.5 && fle z 1 then 0.3
  else if fgt z 1 && fle z 1.5 then 0.2
  else 0.1

/-- Run-aborting failures observable in the script.  zeroDivision is
Python's ZeroDivisionError, raised by float division by zero.
degenerateDistribution is the DegenerateDistributionError of the
specification's error taxonomy; no such error is defined anywhere in the
source, and no code path below produces it — it is included so that the two
outcomes can be compared. -/
inductive RunError where
  | zeroDivision : RunError
  | degenerateDistribution : RunError
deriving DecidableEq

/-- Python float division: raises ZeroDivisionError on a zero divisor,
otherwise returns the exact quotient. -/
def pyDiv (a b : ℚ) : Except RunError ℚ :=
  if b = 0 then Except.error RunError.zeroDivision else Except.ok (a / b)

/-- The z-score assignment of lines 461-465 with its division modelled as
Python float division. -/
def zscoreRun (v m s : ℚ) : Except RunError ℚ := pyDiv (v - m) s

/-- The hos_scaled assignment of line 585 with its division modelled as
Python float division. -/
def hosScaledRun (v mn mx : ℚ) : Except RunError ℚ := pyDiv (v - mn) (mx - mn)

/-- Follows the specification's words (section 4.4): a supplied weight set
is acceptable exactly when its sum is within 1e-6 of 1.0.  Stated for
refinement comparison with the source, which contains no weight
configuration and no such check. -/
def specWeightSumOK (ws : List ℚ) : Bool := decide (|ws.sum - 1| ≤ 1 / 1000000)

/-! Helper lemmas: one lemma per bucket of each classification chain. -/

lemma scaleAscending_b1 (z : ℚ) (h : z ≤ -1.5) : scaleAscending z = 0.1 := by
  simp only [scaleAscending]
  rw [if_pos h]

lemma scaleAscending_b2 (z : ℚ) (h1 : -1.5 < z) (h2 : z ≤ -1) : scaleAscending z = 0.2 := by
  simp only [scaleAscending]
  rw [if_neg (by intro hc; linarith), if_pos ⟨h1, h2⟩]

lemma scaleAscending_b3 (z : ℚ) (h1 : -1 < z) (h2 : z ≤ -0.5) : scaleAscending z = 0.3 := by
  simp only [scaleAscending]
  rw [if_neg (by intro hc; linarith), if_neg (by intro hc; exact absurd hc.2 (by linarith)),
    if_pos ⟨h1, h2⟩]

lemma scaleAscending_b4 (z : ℚ) (h1 : -0.5 < z) (h2 : z ≤ 0.5) : scaleAscending z = 0.5 := by
  simp only [scaleAscending]
  rw [if_neg (by intro hc; linarith), if_neg (by intro hc; exact absurd hc.2 (by linarith)),
    if_neg (by intro hc; exact absurd hc.2 (by linarith)), if_pos ⟨h1, h2⟩]

lemma scaleAscending_b5 (z : ℚ) (h1 : 0.5 < z) (h2 : z ≤ 1) : scaleAscending z = 0.7 := by
  simp only [scaleAscending]
  rw [if_neg (by intro hc; linarith), if_neg (by intro hc; exact absurd hc.2 (by linarith)),
    if_neg (by intro hc; exact absurd hc.2 (by linarith)),
    if_neg (by intro hc; exact absurd hc.2 (by linarith)), if_pos ⟨h1, h2⟩]

lemma scaleAscending_b6 (z : ℚ) (h1 : 1 < z) (h2 : z ≤ 1.5) : scaleAscending z = 0.85 := by
  simp only [scaleAscending]
  rw [if_neg (by intro hc; linarith), if_neg (by intro hc; exact absurd hc.2 (by linarith)),
    if_neg (by intro hc; exact absurd hc.2 (by linarith)),
    if_neg (by intro hc; exact absurd hc.2 (by linarith)),
    if_neg (by intro hc; exact absurd hc.2 (by linarith)), if_pos ⟨h1, h2⟩]

lemma scaleAscending_b7 (z : ℚ) (h1 : 1.5 < z) : scaleAscending z = 1 := by
  simp only [scaleAscending]
  rw [if_neg (by intro hc; linarith), if_neg (by intro hc; exact absurd hc.2 (by linarith)),
    if_neg (by intro hc; exact absurd hc.2 (by linarith)),
    if_neg (by intro hc; exact absurd hc.2 (by linarith)),
    if_neg (by intro hc; exact absurd hc.2 (by linarith)),
    if_neg (by intro hc; exact absurd hc.2 (by linarith))]

lemma scaleDescending_b1 (z : ℚ) (h : z ≤ -1.5) : scaleDescending z = 1 := by
  simp only [scaleDescending]
  rw [if_pos h]

lemma scaleDescending_b2 (z : ℚ) (h1 : -1.5 < z) (h2 : z ≤ -1) : scaleDescending z = 0.85 := by
  simp only [scaleDescending]
  rw [if_neg (by intro hc; linarith), if_pos ⟨h1, h2⟩]

lemma scaleDescending_b3 (z : ℚ) (h1 : -1 < z) (h2 : z ≤ -0.5) : scaleDescending z = 0.7 := by
  simp only [scaleDescending]
  rw [if_neg (by intro hc; linarith), if_neg (by intro hc; exact absurd hc.2 (by linarith)),
    if_pos ⟨h1, h2⟩]

lemma scaleDescending_b4 (z : ℚ) (h1 : -0.5 < z) (h2 : z ≤ 0.5) : scaleDescending z = 0.5 := by
  simp only [scaleDescending]
  rw [if_neg (by intro hc; linarith), if_neg (by intro hc; exact absurd hc.2 (by linarith)),
    if_neg (by intro hc; exact absurd hc.2 (by linarith)), if_pos ⟨h1, h2⟩]

lemma scaleDescending_b5 (z : ℚ) (h1 : 0.5 < z) (h2 : z ≤ 1) : scaleDescending z = 0.3 := by
  simp only [scaleDescending]
  rw [if_neg (by intro hc; linarith), if_neg (by intro hc; exact absurd hc.2 (by linarith)),
    if_neg (by intro hc; exact absurd hc.2 (by linarith)),
    if_neg (by intro hc; exact absurd hc.2 (by linarith)), if_pos ⟨h1, h2⟩]

lemma scaleDescending_b6 (z : ℚ) (h1 : 1 < z) (h2 : z ≤ 1.5) : scaleDescending z = 0.2 := by
  simp only [scaleDescending]
  rw [if_neg (by intro hc; linarith), if_neg (by intro hc; exact absurd hc.2 (by linarith)),
    if_neg (by intro hc; exact absurd hc.2 (by linarith)),
    if_neg (by intro hc; exact absurd hc.2 (by linarith)),
    if_neg (by intro hc; exact absurd hc.2 (by linarith)), if_pos ⟨h1, h2⟩]

lemma scaleDescending_b7 (z : ℚ) (h1 : 1.5 < z) : scaleDescending z = 0.1 := by
  simp only [scaleDescending]
  rw [if_neg (by intro hc; linarith), if_neg (by intro hc; exact absurd hc.2 (by linarith)),
    if_neg (by intro hc; exact absurd hc.2 (by linarith)),
    if_neg (by intro hc; exact absurd hc.2 (by linarith)),
    if_neg (by intro hc; exact absurd hc.2 (by linarith)),
    if_neg (by intro hc; exact absurd hc.2 (by linarith))]

/-- Every rational falls in exactly one of the seven bucket ranges; this is
the case split used to traverse the classification chains. -/
lemma scale_cases (z : ℚ) :
    z ≤ -1.5 ∨ (-1.5 < z ∧ z ≤ -1) ∨ (-1 < z ∧ z ≤ -0.5) ∨ (-0.5 < z ∧ z ≤ 0.5) ∨
    (0.5 < z ∧ z ≤ 1) ∨ (1 < z ∧ z ≤ 1.5) ∨ 1.5 < z := by
  rcases le_or_lt z (-1.5) with h1 | h1
  · exact Or.inl h1
  rcases le_or_lt z (-1) with h2 | h2
  · exact Or.inr (Or.inl ⟨h1, h2⟩)
  rcases le_or_lt z (-0.5) with h3 | h3
  · exact Or.inr (Or.inr (Or.inl ⟨h2, h3⟩))
  rcases le_or_lt z 0.5 with h4 | h4
  · exact Or.inr (Or.inr (Or.inr (Or.inl ⟨h3, h4⟩)))
  rcases le_or_lt z 1 with h5 | h5
  · exact Or.inr (Or.inr (Or.inr (Or.inr (Or.inl ⟨h4, h5⟩))))
  rcases le_or_lt z 1.5 with h6 | h6
  · exact Or.inr (Or.inr (Or.inr (Or.inr (Or.inr (Or.inl ⟨h5, h6⟩)))))
  · exact Or.inr (Or.inr (Or.inr (Or.inr (Or.inr (Or.inr h6)))))

lemma scaleAscending_range (z : ℚ) : 1/10 ≤ scaleAscending z ∧ scaleAscending z ≤ 1 := by
  simp only [scaleAscending]
  split_ifs <;> norm_num

lemma scaleDescending_range (z : ℚ) : 1/10 ≤ scaleDescending z ∧ scaleDescending z ≤ 1 := by
  simp only [scaleDescending]
  split_ifs <;> norm_num

lemma hos_scaled_nonneg (v mn mx : ℚ) (h1 : mn ≤ v) (h3 : mn < mx) :
    0 ≤ hos_scaled v mn mx :=
  div_nonneg (by linarith) (by linarith)

lemma hos_scaled_le_one (v mn mx : ℚ) (h2 : v ≤ mx) (h3 : mn < mx) :
    hos_scaled v mn mx ≤ 1 := by
  rw [hos_scaled, div_le_one (by linarith)]
  linarith

/-- C1: for every zone, the composite MCE score equals the weighted sum of
its six scaled criterion values with the fixed weights age 0.05, income
0.10, burn severity 0.40, road density 0.15, fire-station density 0.20,
hospital proximity 0.10 (which sum to 1); in particular a zone whose six
scaled values all equal 0.5 gets MCE exactly 0.5. -/
theorem C1_mce_weighted_sum :
    (∀ a i b r f ho : ℚ, MCE a i b r f ho = weightedSum [a, i, b, r, f, ho] weights) ∧
    weights.sum = 1 ∧
    (∀ c : ℚ, MCE c c c c c c = c) ∧
    MCE 0.5 0.5 0.5 0.5 0.5 0.5 = 0.5 := by
  refine ⟨?_, ?_, ?_, ?_⟩
  · intro a i b r f ho
    simp only [MCE, weightedSum, weights, List.zipWith, List.sum_cons, List.sum_nil]
    ring
  · norm_num [weights]
  · intro c
    simp only [MCE]
    ring
  · norm_num [MCE]

/-- C2: the ascending-risk classifier (age, burn severity) assigns the
scaled score per the ascending table with buckets closed on the upper
bound; z exactly -1.5 maps to 0.1, not 0.2. -/
theorem C2_ascending_table :
    (∀ z : ℚ,
      (z ≤ -1.5 → scaleAscending z = 0.1) ∧
      (-1.5 < z ∧ z ≤ -1 → scaleAscending z = 0.2) ∧
      (-1 < z ∧ z ≤ -0.5 → scaleAscending z = 0.3) ∧
      (-0.5 < z ∧ z ≤ 0.5 → scaleAscending z = 0.5) ∧
      (0.5 < z ∧ z ≤ 1 → scaleAscending z = 0.7) ∧
      (1 < z ∧ z ≤ 1.5 → scaleAscending z = 0.85) ∧
      (1.5 < z → scaleAscending z = 1)) ∧
    scaleAscending (-1.5) = 0.1 ∧ scaleAscending (-1.5) ≠ 0.2 := by
  refine ⟨fun z => ⟨scaleAscending_b1 z, fun h => scaleAscending_b2 z h.1 h.2,
    fun h => scaleAscending_b3 z h.1 h.2, fun h => scaleAscending_b4 z h.1 h.2,
    fun h => scaleAscending_b5 z h.1 h.2, fun h => scaleAscending_b6 z h.1 h.2,
    scaleAscending_b7 z⟩, scaleAscending_b1 (-1.5) (by norm_num), ?_⟩
  rw [scaleAscending_b1 (-1.5) (by norm_num)]
  norm_num

/-- Witness for C2: the middle bucket applied at z = 0.3. -/
theorem C2_ascending_table_w :
    ((-0.5 : ℚ) < 0.3 ∧ (0.3 : ℚ) ≤ 0.5) ∧ scaleAscending 0.3 = 0.5 :=
  ⟨⟨by norm_num, by norm_num⟩,
    (C2_ascending_table.1 0.3).2.2.2.1 ⟨by norm_num, by norm_num⟩⟩

/-- C3: the descending-risk classifier (income, road density, fire-station
density) uses the same bucket boundaries as the ascending table with the
scaled values reversed per bucket; z = 2.0 yields scaled value 0.1. -/
theorem C3_descending_table :
    (∀ z : ℚ,
      (z ≤ -1.5 → scaleDescending z = 1) ∧
      (-1.5 < z ∧ z ≤ -1 → scaleDescending z = 0.85) ∧
      (-1 < z ∧ z ≤ -0.5 → scaleDescending z = 0.7) ∧
      (-0.5 < z ∧ z ≤ 0.5 → scaleDescending z = 0.5) ∧
      (0.5 < z ∧ z ≤ 1 → scaleDescending z = 0.3) ∧
      (1 < z ∧ z ≤ 1.5 → scaleDescending z = 0.2) ∧
      (1.5 < z → scaleDescending z = 0.1)) ∧
    (∀ z : ℚ, (scaleAscending z, scaleDescending z) ∈
      ([(0.1, 1), (0.2, 0.85), (0.3, 0.7), (0.5, 0.5),
        (0.7, 0.3), (0.85, 0.2), (1, 0.1)] : List (ℚ × ℚ))) ∧
    scaleDescending 2 = 0.1 := by
  refine ⟨fun z => ⟨scaleDescending_b1 z, fun h => scaleDescending_b2 z h.1 h.2,
    fun h => scaleDescending_b3 z h.1 h.2, fun h => scaleDescending_b4 z h.1 h.2,
    fun h => scaleDescending_b5 z h.1 h.2, fun h => scaleDescending_b6 z h.1 h.2,
    scaleDescending_b7 z⟩, ?_, scaleDescending_b7 2 (by norm_num)⟩
  intro z
  rcases scale_cases z with h | h | h | h | h | h | h
  · rw [scaleAscending_b1 z h, scaleDescending_b1 z h]
    simp [List.mem_cons]
  · rw [scaleAscending_b2 z h.1 h.2, scaleDescending_b2 z h.1 h.2]
    simp [List.mem_cons]
  · rw [scaleAscending_b3 z h.1 h.2, scaleDescending_b3 z h.1 h.2]
    simp [List.mem_cons]
  · rw [scaleAscending_b4 z h.1 h.2, scaleDescending_b4 z h.1 h.2]
    simp [List.mem_cons]
  · rw [scaleAscending_b5 z h.1 h.2, scaleDescending_b5 z h.1 h.2]
    simp [List.mem_cons]
  · rw [scaleAscending_b6 z h.1 h.2, scaleDescending_b6 z h.1 h.2]
    simp [List.mem_cons]
  · rw [scaleAscending_b7 z h, scaleDescending_b7 z h]
    simp [List.mem_cons]

/-- Witness for C3: the second bucket applied at z = -1.2. -/
theorem C3_descending_table_w :
    ((-1.5 : ℚ) < -1.2 ∧ (-1.2 : ℚ) ≤ -1) ∧ scaleDescending (-1.2) = 0.85 :=
  ⟨⟨by norm_num, by norm_num⟩,
    (C3_descending_table.1 (-1.2)).2.1 ⟨by norm_num, by norm_num⟩⟩

/-! Helper lemmas for the z-score statistics (claim C4). -/

lemma zscoreColumn_length (vs : List ℚ) (m s : ℚ) :
    (zscoreColumn vs m s).length = vs.length := by
  simp [zscoreColumn]

lemma zscoreColumn_sum (vs : List ℚ) (m s : ℚ) :
    (zscoreColumn vs m s).sum = (vs.sum - (vs.length : ℚ) * m) / s := by
  induction vs with
  | nil => simp [zscoreColumn]
  | cons a t ih =>
      simp only [zscoreColumn, List.map_cons, List.sum_cons, List.length_cons] at ih ⊢
      rw [zscore, ih, div_add_div_same]
      congr 1
      push_cast
      ring

lemma zscoreColumn_mean_zero (vs : List ℚ) (s : ℚ) (hn : vs ≠ []) :
    mean (zscoreColumn vs (mean vs) s) = 0 := by
  have hl : (vs.length : ℚ) ≠ 0 := by
    exact_mod_cast (List.length_pos.mpr hn).ne'
  have key : vs.sum - (vs.length : ℚ) * mean vs = 0 := by
    rw [mean]
    field_simp
  rw [mean, zscoreColumn_length, zscoreColumn_sum, key, zero_div, zero_div]

lemma zscoreColumn_sumSq (vs : List ℚ) (m s : ℚ) :
    ((zscoreColumn vs m s).map (fun z => z ^ 2)).sum =
      ((vs.map (fun v => (v - m) ^ 2)).sum) / s ^ 2 := by
  induction vs with
  | nil => simp [zscoreColumn]
  | cons a t ih =>
      simp only [zscoreColumn, List.map_cons, List.sum_cons] at ih ⊢
      rw [zscore, div_pow, ih, div_add_div_same]

lemma zscoreColumn_sumSqDev (vs : List ℚ) (s : ℚ) (hn : vs ≠ []) :
    sumSqDev (zscoreColumn vs (mean vs) s) = sumSqDev vs / s ^ 2 := by
  have hmean := zscoreColumn_mean_zero vs s hn
  rw [sumSqDev]
  simp only [hmean, sub_zero]
  rw [zscoreColumn_sumSq]
  rfl

/-- C4: every zone's standardized value is z = (v - mean) / std with the
statistics of the full population; consequently the standardized column has
mean 0, and variance 1 (hence standard deviation 1) whenever the divisor s
is the standard deviation of the raw column — stated for both the sample
(n - 1) and the population (n) convention, so the conclusion is independent
of which convention the STD statistic of arcpy uses.  Exact rational
arithmetic stands in for the floating tolerance. -/
theorem C4_zscore_stats (vs : List ℚ) (s : ℚ) (h2 : 2 ≤ vs.length) (hs : s ≠ 0) :
    mean (zscoreColumn vs (mean vs) s) = 0 ∧
    sumSqDev (zscoreColumn vs (mean vs) s) * s ^ 2 = sumSqDev vs ∧
    (s ^ 2 = sampleVariance vs → sampleVariance (zscoreColumn vs (mean vs) s) = 1) ∧
    (s ^ 2 = popVariance vs → popVariance (zscoreColumn vs (mean vs) s) = 1) := by
  have hn : vs ≠ [] := by
    intro h
    rw [h] at h2
    simp at h2
  have hs2 : s ^ 2 ≠ 0 := pow_ne_zero 2 hs
  have hcast : (2 : ℚ) ≤ (vs.length : ℚ) := by exact_mod_cast h2
  have hl : (vs.length : ℚ) ≠ 0 := by linarith
  have hl1 : (vs.length : ℚ) - 1 ≠ 0 := by
    intro h
    have : (vs.length : ℚ) = 1 := by linarith
    linarith
  have core := zscoreColumn_sumSqDev vs s hn
  refine ⟨zscoreColumn_mean_zero vs s hn, ?_, ?_, ?_⟩
  · rw [core, div_mul_cancel₀ _ hs2]
  · intro hstd
    rw [sampleVariance] at hstd
    have hssd : sumSqDev vs = s ^ 2 * ((vs.length : ℚ) - 1) := by
      field_simp at hstd
      linarith
    rw [sampleVariance, zscoreColumn_length, core, hssd]
    field_simp
  · intro hstd
    rw [popVariance] at hstd
    have hssd : sumSqDev vs = s ^ 2 * (vs.length : ℚ) := by
      field_simp at hstd
      linarith
    rw [popVariance, zscoreColumn_length, core, hssd]
    field_simp

/-- Witness for C4: the raw column [0, 1, 2] has mean 1 and sample standard
deviation exactly 1, and its z-score column [-1, 0, 1] has mean 0 and
sample variance 1. -/
theorem C4_zscore_stats_w :
    2 ≤ ([0, 1, 2] : List ℚ).length ∧ (1 : ℚ) ≠ 0 ∧
    (mean (zscoreColumn [0, 1, 2] (mean [0, 1, 2]) 1) = 0 ∧
      sumSqDev (zscoreColumn [0, 1, 2] (mean [0, 1, 2]) 1) * 1 ^ 2 = sumSqDev [0, 1, 2] ∧
      ((1 : ℚ) ^ 2 = sampleVariance [0, 1, 2] →
        sampleVariance (zscoreColumn [0, 1, 2] (mean [0, 1, 2]) 1) = 1) ∧
      ((1 : ℚ) ^ 2 = popVariance [0, 1, 2] →
        popVariance (zscoreColumn [0, 1, 2] (mean [0, 1, 2]) 1) = 1)) :=
  ⟨by norm_num, by norm_num, C4_zscore_stats [0, 1, 2] 1 (by norm_num) (by norm_num)⟩

/-- C5: the min-max criterion (hospital proximity) assigns
r = (v - min) / (max - min); the value lies in [0, 1], the zone with the
minimum raw value scores exactly 0, the zone with the maximum raw value
scores exactly 1, and raw values 100, 500, 1000 over the range [100, 1000]
scale to 0, 4/9 and 1. -/
theorem C5_minmax (v mn mx : ℚ) (h1 : mn ≤ v) (h2 : v ≤ mx) (h3 : mn < mx) :
    (0 ≤ hos_scaled v mn mx ∧ hos_scaled v mn mx ≤ 1) ∧
    hos_scaled mn mn mx = 0 ∧
    hos_scaled mx mn mx = 1 ∧
    (hos_scaled 100 100 1000 = 0 ∧ hos_scaled 500 100 1000 = 4/9 ∧
      hos_scaled 1000 100 1000 = 1) := by
  refine ⟨⟨hos_scaled_nonneg v mn mx h1 h3, hos_scaled_le_one v mn mx h2 h3⟩, ?_, ?_, ?_⟩
  · rw [hos_scaled, sub_self, zero_div]
  · rw [hos_scaled, div_self (by intro h; linarith [sub_eq_zero.mp h])]
  · refine ⟨?_, ?_, ?_⟩ <;> norm_num [hos_scaled]

/-- Witness for C5: the range [0, 2] with v = 1 scales to 1/2. -/
theorem C5_minmax_w :
    (0 : ℚ) ≤ 1 ∧ (1 : ℚ) ≤ 2 ∧ (0 : ℚ) < 2 ∧
    ((0 ≤ hos_scaled 1 0 2 ∧ hos_scaled 1 0 2 ≤ 1) ∧
      hos_scaled 0 0 2 = 0 ∧
      hos_scaled 2 0 2 = 1 ∧
      (hos_scaled 100 100 1000 = 0 ∧ hos_scaled 500 100 1000 = 4/9 ∧
        hos_scaled 1000 100 1000 = 1)) :=
  ⟨by norm_num, by norm_num, by norm_num,
    C5_minmax 1 0 2 (by norm_num) (by norm_num) (by norm_num)⟩

/-- C6 counterexample: at zero standard deviation (or zero range) the
script's unguarded division fails with Python's ZeroDivisionError, which is
not the DegenerateDistributionError the claim names; no
DegenerateDistributionError exists in the source. -/
theorem C6_counterexample :
    zscoreRun 1 0 0 = Except.error RunError.zeroDivision ∧
    zscoreRun 1 0 0 ≠ Except.error RunError.degenerateDistribution ∧
    hosScaledRun 5 3 3 = Except.error RunError.zeroDivision ∧
    hosScaledRun 5 3 3 ≠ Except.error RunError.degenerateDistribution := by
  refine ⟨?_, ?_, ?_, ?_⟩ <;> simp [zscoreRun, hosScaledRun, pyDiv]

/-- C6 amended: if a z-scored criterion has zero standard deviation, or the
min-max criterion has max = min, the run fails with Python's
ZeroDivisionError at the unguarded division — it does not raise a
DegenerateDistributionError (the source defines none), though neither does
it silently propagate a non-finite value into the scores. -/
theorem C6_zero_divisor_behavior (v m s v2 mn mx : ℚ) (hs : s = 0) (hr : mx = mn) :
    zscoreRun v m s = Except.error RunError.zeroDivision ∧
    hosScaledRun v2 mn mx = Except.error RunError.zeroDivision := by
  subst hs
  subst hr
  simp [zscoreRun, hosScaledRun, pyDiv]

/-- Witness for the amended C6 at s = 0 and max = min = 3. -/
theorem C6_zero_divisor_behavior_w :
    (0 : ℚ) = 0 ∧ (3 : ℚ) = 3 ∧
    (zscoreRun 1 0 0 = Except.error RunError.zeroDivision ∧
      hosScaledRun 5 3 3 = Except.error RunError.zeroDivision) :=
  ⟨rfl, rfl, C6_zero_divisor_behavior 1 0 0 5 3 3 rfl rfl⟩

/-- C7 counterexample: a weight set failing the specification's sum check
exists (the spec-side validator rejects it), yet the script's composite
scoring is a total function with the literal weights of lines 606-611 — it
accepts no supplied weight set, performs no validation, and scores the zone
unconditionally instead of computing nothing. -/
theorem C7_counterexample :
    specWeightSumOK [0.05, 0.1, 0.4, 0.15, 0.2, 0.2] = false ∧
    scoreZones [⟨0, 0.5, 0.5, 0.5, 0.5, 0.5, 0.5⟩] = [(0, 0.5)] := by
  constructor
  · simp only [specWeightSumOK, decide_eq_false_iff_not]
    norm_num [abs_of_pos]
  · simp only [scoreZones, zoneMCE, MCE, List.map_cons, List.map_nil]
    norm_num

/-- C7 amended: the criterion weights are the hardcoded constants 0.05,
0.10, 0.40, 0.15, 0.20, 0.10 of lines 606-611 (summing to 1); the script
has no weight-configuration input and no InvalidWeightConfigurationError,
and every zone is scored with the fixed weights unconditionally. -/
theorem C7_fixed_weights (zs : List ZoneRec) :
    scoreZones zs = zs.map (fun z => (z.id,
      weightedSum [z.age_scaled, z.inc_scaled, z.burn_scaled, z.road_scaled,
        z.fstation_scaled, z.hos_scaled] weights)) ∧
    weights.sum = 1 := by
  constructor
  · have hf : (fun z : ZoneRec => (z.id, zoneMCE z)) =
        (fun z : ZoneRec => (z.id,
          weightedSum [z.age_scaled, z.inc_scaled, z.burn_scaled, z.road_scaled,
            z.fstation_scaled, z.hos_scaled] weights)) := by
      funext z
      simp only [Prod.mk.injEq, zoneMCE, MCE, weightedSum, weights, List.zipWith,
        List.sum_cons, List.sum_nil, true_and]
      ring
    rw [scoreZones, hf]
  · norm_num [weights]

/-- C8 counterexample: a two-row table whose first row has the smaller
composite score; the script updates rows in table order and never sorts, so
the emitted scores are not in descending MCE order. -/
theorem C8_counterexample :
    sortedDescB ((scoreZones [⟨1, 0.1, 0.1, 0.1, 0.1, 0.1, 0.1⟩,
      ⟨2, 1, 1, 1, 1, 1, 1⟩]).map Prod.snd) = false := by
  simp only [scoreZones, zoneMCE, MCE, List.map_cons, List.map_nil, sortedDescB,
    Bool.and_true, decide_eq_false_iff_not]
  norm_num

/-- C8 amended: the MCE update cursor writes the composite score into every
row of the table in table order; the output keeps the table's row order
(identifiers unchanged, each paired with its own composite score) and no
sorting by MCE is performed anywhere in the script. -/
theorem C8_table_order (zs : List ZoneRec) :
    (scoreZones zs).map Prod.fst = zs.map ZoneRec.id ∧
    ∀ p ∈ scoreZones zs, ∃ z ∈ zs, p = (z.id, zoneMCE z) := by
  constructor
  · simp [scoreZones, List.map_map, Function.comp]
  · intro p hp
    simp only [scoreZones, List.mem_map] at hp
    obtain ⟨z, hz, hpz⟩ := hp
    exact ⟨z, hz, hpz.symm⟩

/-- Witness for the amended C8 on a one-row table. -/
theorem C8_table_order_w :
    ((7 : ℕ), (1 : ℚ)) ∈ scoreZones [⟨7, 1, 1, 1, 1, 1, 1⟩] ∧
    ∃ z ∈ ([⟨7, 1, 1, 1, 1, 1, 1⟩] : List ZoneRec),
      ((7 : ℕ), (1 : ℚ)) = (z.id, zoneMCE z) := by
  have hmem : ((7 : ℕ), (1 : ℚ)) ∈ scoreZones [⟨7, 1, 1, 1, 1, 1, 1⟩] := by
    simp only [scoreZones, zoneMCE, MCE, List.map_cons, List.map_nil]
    norm_num
  exact ⟨hmem, (C8_table_order [⟨7, 1, 1, 1, 1, 1, 1⟩]).2 (7, 1) hmem⟩

/-- C9 counterexample: the zone holding the minimum hospital raw value gets
hospital scaled value exactly 0, and if its five classified criteria all
fall in their least-vulnerable buckets the composite is 9/100, which is
below the claimed lower bound 0.1. -/
theorem C9_counterexample :
    MCE (scaleAscending (-2)) (scaleDescending 2) (scaleAscending (-2))
      (scaleDescending 2) (scaleDescending 2) (hos_scaled 0 0 1) = 9/100 ∧
    MCE (scaleAscending (-2)) (scaleDescending 2) (scaleAscending (-2))
      (scaleDescending 2) (scaleDescending 2) (hos_scaled 0 0 1) < 1/10 := by
  have e1 : scaleAscending (-2) = 0.1 := scaleAscending_b1 (-2) (by norm_num)
  have e2 : scaleDescending 2 = 0.1 := scaleDescending_b7 2 (by norm_num)
  have e3 : hos_scaled 0 0 1 = 0 := by norm_num [hos_scaled]
  simp only [e1, e2, e3]
  norm_num [MCE]

/-- C9 amended: for every zone the composite MCE is a single value in
[0.09, 1.0] (higher = more vulnerable): the five classified criteria each
contribute a scaled value in [0.1, 1], while the min-max hospital criterion
contributes a value in [0, 1], so the lower bound is 0.09, not 0.1. -/
theorem C9_mce_range (za zi zb zr zf v mn mx : ℚ)
    (h1 : mn ≤ v) (h2 : v ≤ mx) (h3 : mn < mx) :
    9/100 ≤ MCE (scaleAscending za) (scaleDescending zi) (scaleAscending zb)
      (scaleDescending zr) (scaleDescending zf) (hos_scaled v mn mx) ∧
    MCE (scaleAscending za) (scaleDescending zi) (scaleAscending zb)
      (scaleDescending zr) (scaleDescending zf) (hos_scaled v mn mx) ≤ 1 := by
  obtain ⟨a1l, a1u⟩ := scaleAscending_range za
  obtain ⟨a2l, a2u⟩ := scaleAscending_range zb
  obtain ⟨d1l, d1u⟩ := scaleDescending_range zi
  obtain ⟨d2l, d2u⟩ := scaleDescending_range zr
  obtain ⟨d3l, d3u⟩ := scaleDescending_range zf
  have hh0 := hos_scaled_nonneg v mn mx h1 h3
  have hh1 := hos_scaled_le_one v mn mx h2 h3
  refine ⟨?_, ?_⟩ <;> simp only [MCE] <;> linarith

/-- Witness for the amended C9 with all z-scores 0 and the minimum hospital
value of the range [0, 1]. -/
theorem C9_mce_range_w :
    (0 : ℚ) ≤ 0 ∧ (0 : ℚ) ≤ 1 ∧ (0 : ℚ) < 1 ∧
    (9/100 ≤ MCE (scaleAscending 0) (scaleDescending 0) (scaleAscending 0)
      (scaleDescending 0) (scaleDescending 0) (hos_scaled 0 0 1) ∧
    MCE (scaleAscending 0) (scaleDescending 0) (scaleAscending 0)
      (scaleDescending 0) (scaleDescending 0) (hos_scaled 0 0 1) ≤ 1) :=
  ⟨le_refl 0, by norm_num, by norm_num,
    C9_mce_range 0 0 0 0 0 0 0 1 (le_refl 0) (by norm_num) (by norm_num)⟩

/-- C10: each classification chain ends in an unconditional else, so every
input — any rational, and also NaN, which fails every range comparison in
the chain — is assigned one of the seven scaled values and the classifier
never raises; NaN falls through to the else branch and receives the
extreme score 1 from the ascending chains and 0.1 from the descending
chains. -/
theorem C10_else_totality :
    (∀ z : Option ℚ,
      scaleAscendingF z ∈ ([0.1, 0.2, 0.3, 0.5, 0.7, 0.85, 1] : List ℚ) ∧
      scaleDescendingF z ∈ ([1, 0.85, 0.7, 0.5, 0.3, 0.2, 0.1] : List ℚ)) ∧
    scaleAscendingF Option.none = 1 ∧
    scaleDescendingF Option.none = 0.1 := by
  refine ⟨?_, rfl, rfl⟩
  intro z
  constructor
  · simp only [scaleAscendingF]
    split_ifs <;> simp [List.mem_cons]
  · simp only [scaleDescendingF]
    split_ifs <;> simp [List.mem_cons]

end Wildfire
